import Mathlib

/-!
# Verification of the wyag object-store library (`src/python/libwyag.py`)

This file gives a shallow embedding of the library's data model and
operations.  Bytes are modelled as `List Nat` (each element `< 256` in
well-formed data), Python `str` as Lean `String`, and Python exceptions as
an explicit error type `PyErr`.  Unbounded loops and recursion (Python has
no structural-termination guarantee) are modelled with an explicit fuel
argument, `none` meaning "still running after `fuel` steps".

Python-specific primitive semantics (`bytes.find`, slice clamping,
`str.strip`, `int(...)`, `hex(...)`, utf-8/ascii codecs, truthiness of
strings) are each given their own small definition named `py...`, so that
every line of an embedded function can be matched against the source line
it translates.
-/

/-- Errors a run of the embedded code can raise.  Each constructor stands
for one `raise`/builtin-exception site of the Python source. -/
inductive PyErr where
  /-- A failed `assert` statement. -/
  | assertionError
  /-- Reference to an undefined local, e.g. the misspelled `dc` in
  `Commit.deserialize`, or `sha` in `BaseObject.__get_cls`. -/
  | nameError
  /-- `bytes.decode` failure. -/
  | unicodeDecodeError
  /-- `int(...)` on a malformed string. -/
  | valueError
  /-- `int.to_bytes` overflow / negative value. -/
  | overflowError
  /-- Attribute access on `None` (e.g. `None.glob`, `None.read_bytes`). -/
  | attributeError
  /-- Opening a file that does not exist. -/
  | fileNotFoundError
  /-- `read_text`/`read_bytes` on a directory. -/
  | isADirectoryError
  /-- `Repository.dir`: "Not a directory (file exists)". -/
  | notADirectoryError
  /-- `dict[...]` on a missing key (`self.dct[""]` in `Commit.serialize`). -/
  | keyError
  /-- `str + list` in `Commit.serialize` when the message is a list. -/
  | typeError
  /-- `object_find`: "name ... doesn't match any object." -/
  | noMatch
  /-- `object_find`: "Short hash doesn't match any object". -/
  | shortHashNoMatch
  /-- `object_find`: "Ambiguous short hash". -/
  | ambiguousShortHash
  /-- `BaseObject.read`: "Malformed object ...: bad length". -/
  | malformedObject
  /-- zlib decompression failure. -/
  | zlibError
deriving DecidableEq, Repr

/-! ## Python primitive semantics -/

/-- Python slice-index clamping: a negative index counts from the end
(clamped at 0), a positive one is clamped at the length. -/
def pyIdx (len : Nat) (i : Int) : Nat :=
  if i < 0 then ((len : Int) + i).toNat else min i.toNat len

/-- Python `raw[a:b]` on `bytes`. -/
def pySlice (raw : List Nat) (a b : Int) : List Nat :=
  (raw.take (pyIdx raw.length b)).drop (pyIdx raw.length a)

/-- Python `raw[a:]` on `bytes`. -/
def pySliceFrom (raw : List Nat) (a : Int) : List Nat :=
  pySlice raw a (raw.length : Int)

/-- Index of the first occurrence of `b`, or `none`. -/
def findIdxFrom : List Nat → Nat → Option Nat
  | [], _ => none
  | x :: xs, b => if x == b then some 0 else (findIdxFrom xs b).map (· + 1)

/-- Python `raw.find(bytes([b]), start)`: `-1` when absent. -/
def pyFind (raw : List Nat) (b : Nat) (start : Int) : Int :=
  match findIdxFrom (raw.drop (pyIdx raw.length start)) b with
  | none => -1
  | some i => ((pyIdx raw.length start + i : Nat) : Int)

/-- Python `raw[i]` on `bytes` (an `int`); only evaluated in-range by the
source, out-of-range reads default to 0 here. -/
def pyGetI (raw : List Nat) (i : Int) : Nat :=
  raw.getD (pyIdx raw.length i) 0

/-- Python 3 semantics of `raw[i] == b" "` (`Commit.deserialize`, line 277):
`raw[i]` is an `int` while `b" "` is `bytes`; `==` between values of
different types is `False`. -/
def pyEqIntBytes (_ : Nat) (_ : List Nat) : Bool := false

/-- Python whitespace characters stripped by `str.strip()` (ASCII part). -/
def isPyWs (c : Char) : Bool :=
  (c == ' ') || (c == '\t') || (c == '\n') || (c == '\x0b') || (c == '\x0c') || (c == '\r')

/-- Python `str.strip()`. -/
def pyStrip (s : String) : String :=
  ⟨((s.data.dropWhile isPyWs).reverse.dropWhile isPyWs).reverse⟩

/-- Python `s[:n]` (by code point, as in Python). -/
def pyStrTake (s : String) (n : Nat) : String := ⟨s.data.take n⟩

/-- Python `s[n:]` (by code point, as in Python). -/
def pyStrDrop (s : String) (n : Nat) : String := ⟨s.data.drop n⟩

/-- Python `s.startswith(p)`. -/
def pyStartsWith (s p : String) : Bool := p.data.isPrefixOf s.data

/-- ASCII lowering of one character (`str.lower()` on the hex/ref data the
source handles). -/
def pyLowerChar (c : Char) : Char :=
  if 'A' ≤ c && c ≤ 'Z' then Char.ofNat (c.toNat + 32) else c

/-- Python `s.lower()`. -/
def pyLower (s : String) : String := ⟨s.data.map pyLowerChar⟩

/-- UTF-8 encoding of one code point. -/
def utf8EncodeChar (n : Nat) : List Nat :=
  if n < 0x80 then [n]
  else if n < 0x800 then [0xC0 + n / 64, 0x80 + n % 64]
  else if n < 0x10000 then [0xE0 + n / 4096, 0x80 + n / 64 % 64, 0x80 + n % 64]
  else [0xF0 + n / 262144, 0x80 + n / 4096 % 64, 0x80 + n / 64 % 64, 0x80 + n % 64]

/-- Python `s.encode()` (UTF-8). -/
def strBytes (s : String) : List Nat :=
  (s.data.map (fun c => utf8EncodeChar c.toNat)).flatten

/-- A UTF-8 continuation byte. -/
def utf8Cont (b : Nat) : Bool := 0x80 ≤ b && b < 0xC0

/-- Strict UTF-8 decoding (as Python's `bytes.decode()`), rejecting
overlong forms, surrogates and values above `U+10FFFF`. -/
def pyDecodeUtf8Chars : List Nat → Option (List Char)
  | [] => some []
  | b :: rest =>
    if b < 0x80 then (pyDecodeUtf8Chars rest).map (Char.ofNat b :: ·)
    else if b < 0xC2 then none
    else if b < 0xE0 then
      match rest with
      | b2 :: r2 =>
        if utf8Cont b2 then
          (pyDecodeUtf8Chars r2).map (Char.ofNat ((b - 0xC0) * 64 + (b2 - 0x80)) :: ·)
        else none
      | [] => none
    else if b < 0xF0 then
      match rest with
      | b2 :: b3 :: r2 =>
        if (if b == 0xE0 then 0xA0 else 0x80) ≤ b2 &&
           b2 < (if b == 0xED then 0xA0 else 0xC0) && utf8Cont b3 then
          (pyDecodeUtf8Chars r2).map
            (Char.ofNat ((b - 0xE0) * 4096 + (b2 - 0x80) * 64 + (b3 - 0x80)) :: ·)
        else none
      | _ => none
    else if b < 0xF5 then
      match rest with
      | b2 :: b3 :: b4 :: r2 =>
        if (if b == 0xF0 then 0x90 else 0x80) ≤ b2 &&
           b2 < (if b == 0xF4 then 0x90 else 0xC0) && utf8Cont b3 && utf8Cont b4 then
          (pyDecodeUtf8Chars r2).map
            (Char.ofNat ((b - 0xF0) * 262144 + (b2 - 0x80) * 4096 +
              (b3 - 0x80) * 64 + (b4 - 0x80)) :: ·)
        else none
      | _ => none
    else none

/-- Python `raw.decode()` (UTF-8), `none` = `UnicodeDecodeError`. -/
def pyDecodeUtf8 (l : List Nat) : Option String := (pyDecodeUtf8Chars l).map (⟨·⟩)

/-- The string of a list of ASCII byte values. -/
def asciiStr (l : List Nat) : String := ⟨l.map Char.ofNat⟩

/-- Python `raw.decode("ascii")`, `none` = `UnicodeDecodeError`. -/
def pyDecodeAscii (l : List Nat) : Option String :=
  if l.all (fun b => b < 128) then some (asciiStr l) else none

/-- Digits of a decimal string. -/
def digitsToNat? : List Char → Option Nat
  | [] => none
  | ds =>
    if ds.all Char.isDigit then
      some (ds.foldl (fun acc c => acc * 10 + (c.toNat - '0'.toNat)) 0)
    else none

/-- Python `int(s)` (base 10): surrounding whitespace and a sign are
allowed. `none` = `ValueError`.  (Underscore digit separators are not
modelled; the formats at hand never contain them.) -/
def pyIntDec? (s : String) : Option Int :=
  match (pyStrip s).data with
  | '-' :: ds => (digitsToNat? ds).map (fun n => -(n : Int))
  | '+' :: ds => (digitsToNat? ds).map (fun n => (n : Int))
  | ds => (digitsToNat? ds).map (fun n => (n : Int))

/-- Value of one hexadecimal digit (code points 0-9 / a-f / A-F). -/
def hexDigitVal? (c : Char) : Option Nat :=
  let n := c.toNat
  if 48 ≤ n && n ≤ 57 then some (n - 48)
  else if 97 ≤ n && n ≤ 102 then some (n - 87)
  else if 65 ≤ n && n ≤ 70 then some (n - 55)
  else none

/-- Hex digits of a string. -/
def hexDigitsToNat? : List Char → Option Nat
  | [] => none
  | ds => ds.foldl (fun acc c => do (← acc) * 16 + (← hexDigitVal? c)) (some 0)

/-- Python `int(s, 16)`: surrounding whitespace, sign and an optional `0x`
are allowed.  `none` = `ValueError`. -/
def pyIntHex? (s : String) : Option Int :=
  let core : List Char → Option Nat := fun ds =>
    match ds with
    | '0' :: 'x' :: rest => hexDigitsToNat? rest
    | '0' :: 'X' :: rest => hexDigitsToNat? rest
    | rest => hexDigitsToNat? rest
  match (pyStrip s).data with
  | '-' :: ds => (core ds).map (fun n => -(n : Int))
  | '+' :: ds => (core ds).map (fun n => (n : Int))
  | ds => (core ds).map (fun n => (n : Int))

/-- Python `hex(n)[2:]` for `n ≥ 0`: minimal lowercase hex digits, `"0"`
for zero — note: no leading-zero padding. -/
def pyHex (n : Nat) : String := ⟨Nat.toDigits 16 n⟩

/-- Python `int.from_bytes(raw, "big")`. -/
def fromBytesBE (raw : List Nat) : Nat :=
  raw.foldl (fun acc b => acc * 256 + b) 0

/-- Big-endian bytes of `n`, width `w` (the value of
`n.to_bytes(w, "big")` when it does not overflow). -/
def natToBytesBE (w n : Nat) : List Nat :=
  (List.range w).map (fun i => n / 256 ^ (w - 1 - i) % 256)

/-- Python `n.to_bytes(20, byteorder="big")`: `OverflowError` on a
negative or too-large value. -/
def intToBytes20? (n : Int) : Except PyErr (List Nat) :=
  if n < 0 then .error .overflowError
  else if n.toNat < 256 ^ 20 then .ok (natToBytesBE 20 n.toNat) else .error .overflowError

/-! ## `byte_to_hex` (libwyag.py lines 10-12) -/

/-- `byte_to_hex(raw)`: asserts `len(raw) == 20`, then
`hex(int.from_bytes(raw, "big"))[2:]`.  Python's `hex` emits no leading
zeros, so the result is *not* always 40 characters. -/
def byteToHex (raw : List Nat) : Except PyErr String :=
  if raw.length = 20 then .ok (pyHex (fromBytesBE raw)) else .error .assertionError

/-! ## KVLM codec (`Commit.serialize` / `Commit.deserialize`,
libwyag.py lines 249-291) -/

/-- A value of the ordered `dct`: Python stores either a `str` or a
`list` of `str` for multi-valued keys. -/
inductive KV where
  | s (v : String)
  | l (vs : List String)
deriving DecidableEq, Repr

/-- The `collections.OrderedDict` of a commit/tag: association list in
insertion order. -/
abbrev KVDict := List (String × KV)

/-- `key in dct`. -/
def dctHasKey (d : KVDict) (k : String) : Bool := d.any (fun p => p.1 == k)

/-- `dct[key]` (lookup). -/
def dctGet? (d : KVDict) (k : String) : Option KV :=
  (d.find? (fun p => p.1 == k)).map Prod.snd

/-- `dct[key] = v`: update in place if present (keeping the insertion
position, as `OrderedDict` does), else append. -/
def dctSet (d : KVDict) (k : String) (v : KV) : KVDict :=
  if dctHasKey d k then d.map (fun p => if p.1 == k then (k, v) else p)
  else d ++ [(k, v)]

/-- The folded-continuation scan `while end < len(raw)-1 and
raw[end+1] == b" ": end = raw.find(b"\x0a", end+1)` (lines 277-278).
Note the comparison is `pyEqIntBytes` — in Python 3 it is always
`False`, so the loop body never runs. -/
def kvlmContLoop : Nat → List Nat → Int → Option Int
  | 0, _, _ => none
  | fuel + 1, raw, e =>
    if e < (raw.length : Int) - 1 && pyEqIntBytes (pyGetI raw (e + 1)) (strBytes " ") then
      kvlmContLoop fuel raw (pyFind raw 0x0a (e + 1))
    else some e

/-- `bytes.replace(b"\x0a\x20", b"\x0a")` (line 279). -/
def listReplaceNlSp : List Nat → List Nat
  | 10 :: 32 :: rest => 10 :: listReplaceNlSp rest
  | c :: rest => c :: listReplaceNlSp rest
  | [] => []

/-- The recursive `inner(start, dct)` of `Commit.deserialize`
(lines 265-289), fuel-bounded. -/
def kvlmInner : Nat → List Nat → Nat → KVDict → Option (Except PyErr KVDict)
  | 0, _, _, _ => none
  | fuel + 1, raw, start, dct =>
    let d20 := pyFind raw 0x20 (start : Int)
    let d0a := pyFind raw 0x0a (start : Int)
    if (start : Int) = d0a then
      match pyDecodeAscii (pySliceFrom raw ((start : Int) + 1)) with
      | none => some (.error .unicodeDecodeError)
      | some m => some (.ok (dctSet dct "" (KV.s m)))
    else
      match pyDecodeAscii (pySlice raw (start : Int) d20) with
      | none => some (.error .unicodeDecodeError)
      | some key =>
        match kvlmContLoop (raw.length + 1) raw d0a with
        | none => none
        | some e =>
          match pyDecodeAscii (listReplaceNlSp (pySlice raw (d20 + 1) e)) with
          | none => some (.error .unicodeDecodeError)
          | some value =>
            let step : Except PyErr KVDict :=
              if dctHasKey dct key then
                match dctGet? dct key with
                | some (KV.l vs) => .ok (dctSet dct key (KV.l (vs ++ [value])))
                -- `dct[key] = [dc[key], value]`: `dc` is an undefined
                -- local (misspelling of `dct`) → NameError.
                | _ => .error .nameError
              else .ok (dctSet dct key (KV.s value))
            match step with
            | .error err => some (.error err)
            | .ok dct2 => kvlmInner fuel raw (e + 1).toNat dct2

/-- `Commit.deserialize(raw)` = `inner(start=0, dct=OrderedDict())`. -/
def kvlmParse (fuel : Nat) (raw : List Nat) : Option (Except PyErr KVDict) :=
  kvlmInner fuel raw 0 []

/-- `if type(v) != list: v = [v]` (lines 255-256). -/
def kvListify : KV → List String
  | .s v => [v]
  | .l vs => vs

/-- `e.replace("\x0a", "\x0a\x20")` (line 259). -/
def strFoldNl : List Char → List Char
  | '\n' :: rest => '\n' :: ' ' :: strFoldNl rest
  | c :: rest => c :: strFoldNl rest
  | [] => []

/-- One serialized header line `k + "\x20" + e.replace(...) + "\x0a"`. -/
def kvlmHeaderStr (k e : String) : String :=
  k ++ "\x20" ++ (⟨strFoldNl e.data⟩ : String) ++ "\x0a"

/-- `Commit.serialize` (lines 249-262): headers in stored order (the
message key `""` skipped), one physical line per value, then a blank
line and the message; the result is `.encode()`d. -/
def commitSerialize (dct : KVDict) : Except PyErr (List Nat) :=
  let hdr := dct.foldl
    (fun acc p =>
      if p.1 = "" then acc
      else (kvListify p.2).foldl (fun a e => a ++ kvlmHeaderStr p.1 e) acc)
    ""
  match dctGet? dct "" with
  | none => .error .keyError
  | some (KV.s m) => .ok (strBytes (hdr ++ "\x0a" ++ m))
  | some (KV.l _) => .error .typeError

/-- Decidable equality of run results. -/
instance (priority := low) {ε α : Type} [DecidableEq ε] [DecidableEq α] :
    DecidableEq (Except ε α) := fun a b =>
  match a, b with
  | .ok x, .ok y =>
    if h : x = y then .isTrue (by simp [h]) else .isFalse (by simp [h])
  | .error x, .error y =>
    if h : x = y then .isTrue (by simp [h]) else .isFalse (by simp [h])
  | .ok _, .error _ => .isFalse (by simp)
  | .error _, .ok _ => .isFalse (by simp)

/-! ## Tree codec (`TreeEntry`, `Tree`, libwyag.py lines 310-344) and the
framing of `BaseObject.write` (lines 201-213) -/

/-- One tree entry (`TreeEntry.__init__`). -/
structure TreeEntry where
  mode : String
  path : String
  sha : String
deriving DecidableEq, Repr

/-- `TreeEntry.read(raw)` (lines 311-320): returns the consumed length
and the entry; the OID text comes from `byte_to_hex`. -/
def treeEntryRead (raw : List Nat) : Except PyErr (Int × TreeEntry) :=
  let d20 := pyFind raw 0x20 0
  let d00 := pyFind raw 0x00 0
  match pyDecodeAscii (pySlice raw 0 d20) with
  | none => .error .unicodeDecodeError
  | some mode =>
    match pyDecodeAscii (pySlice raw (d20 + 1) d00) with
    | none => .error .unicodeDecodeError
    | some path =>
      match byteToHex (pySlice raw (d00 + 1) (d00 + 21)) with
      | .error e => .error e
      | .ok sha => .ok (d00 + 21, ⟨mode, path, sha⟩)

/-- `Tree.deserialize` (lines 338-344): consume entries while
`pos < len(raw)`. -/
def treeDeserialize : Nat → List Nat → Int → List TreeEntry →
    Option (Except PyErr (List TreeEntry))
  | 0, _, _, _ => none
  | fuel + 1, raw, pos, acc =>
    if pos < (raw.length : Int) then
      match treeEntryRead (pySliceFrom raw pos) with
      | .error e => some (.error e)
      | .ok (len, entry) => treeDeserialize fuel raw (pos + len) (acc ++ [entry])
    else some (.ok acc)

/-- Serialization of one entry inside the loop of `Tree.serialize`
(lines 333-335): `(mode + "\x20" + path + "\x00").encode()` followed by
`int(sha, 16).to_bytes(20, "big")`. -/
def treeEntrySerialize (e : TreeEntry) : Except PyErr (List Nat) :=
  match pyIntHex? e.sha with
  | none => .error .valueError
  | some n =>
    match intToBytes20? n with
    | .error er => .error er
    | .ok bs => .ok (strBytes (e.mode ++ "\x20" ++ e.path ++ "\x00") ++ bs)

/-- `Tree.serialize` (lines 331-336): concatenate the entries *in stored
order* — the write path performs no sorting. -/
def treeSerialize : List TreeEntry → Except PyErr (List Nat)
  | [] => .ok []
  | e :: rest =>
    match treeEntrySerialize e with
    | .error er => .error er
    | .ok b =>
      match treeSerialize rest with
      | .error er => .error er
      | .ok bs => .ok (b ++ bs)

/-- The framed bytes built by `BaseObject.write` (line 206):
`(fmt + " " + str(len(data)) + "\x00").encode() + data`.  The OID is the
SHA-1 of exactly these bytes, so distinct framed bytes give distinct OIDs
(up to SHA-1 collision). -/
def objectWriteData (fmt : String) (payload : List Nat) : List Nat :=
  strBytes (fmt ++ " " ++ toString payload.length ++ "\x00") ++ payload

/-- The framed bytes of writing a tree with the given stored entries. -/
def treeWriteData (l : List TreeEntry) : Except PyErr (List Nat) :=
  match treeSerialize l with
  | .error e => .error e
  | .ok d => .ok (objectWriteData "tree" d)

/-- Byte-wise comparison of strings (Python compares `str` by code
point). -/
def charListLt : List Char → List Char → Bool
  | [], [] => false
  | [], _ :: _ => true
  | _ :: _, [] => false
  | a :: as, b :: bs =>
    if a.toNat < b.toNat then true
    else if b.toNat < a.toNat then false
    else charListLt as bs

/-- Byte-wise strict comparison of strings, continued. -/
def strLtB (a b : String) : Bool := charListLt a.data b.data

/-- Stable insertion into a `strLtB`-sorted list, keyed by `key`. -/
def insertSortedBy {α : Type} (key : α → String) (x : α) : List α → List α
  | [] => [x]
  | y :: ys => if strLtB (key y) (key x) then y :: insertSortedBy key x ys
               else x :: y :: ys

/-- Sort by a string key (insertion sort; stable for distinct keys). -/
def sortByKey {α : Type} (key : α → String) (l : List α) : List α :=
  l.foldr (insertSortedBy key) []

/-- Modelled from the spec (§4.5), for comparison with the source's
`Tree.serialize`: the *canonical sort key* of an entry — its path,
treating directory-typed entries (mode starting with `40`) as if their
name ended with `/`. -/
def treeSortKeySpec (e : TreeEntry) : String :=
  if pyStartsWith e.mode "40" then e.path ++ "/" else e.path

/-- Modelled from the spec (§4.5): the canonical order of a tree's
entries.  The source's write path does **not** apply it. -/
def treeCanonicalSortSpec (l : List TreeEntry) : List TreeEntry :=
  sortByKey treeSortKeySpec l

/-- Concrete entry `b` (a regular file). -/
def treeEntryB : TreeEntry := ⟨"100644", "b", "aa"⟩

/-- Concrete entry `a` (a directory: mode starts with `40`). -/
def treeEntryA : TreeEntry := ⟨"40000", "a", "bb"⟩

/-! ## Repository filesystem model, refs and the name resolver
(`Repository`, `Ref`, libwyag.py lines 59-153 and 347-368) -/

/-- A snapshot of the `.git` directory: regular files hold raw bytes,
directories hold named children (the listing order models the
filesystem's `glob("*")` order). -/
inductive FSNode where
  | file (content : List Nat)
  | dir (children : List (String × FSNode))

/-- First binding of a name in a directory listing (names are unique on
a real filesystem). -/
def fsChild : List (String × FSNode) → String → Option FSNode
  | [], _ => none
  | (n, node) :: rest, s => if n = s then some node else fsChild rest s

/-- Resolve a path (list of segments) under the `.git` directory. -/
def fsLookup : FSNode → List String → Option FSNode
  | node, [] => some node
  | .file _, _ :: _ => none
  | .dir cs, s :: rest =>
    match fsChild cs s with
    | none => none
    | some n => fsLookup n rest

/-- Split a path string on `/` into its segments (what `pathlib` does
with `gitdir / path`). -/
def splitSlashAux : List Char → List Char → List String
  | [], acc => [(⟨acc.reverse⟩ : String)]
  | c :: cs, acc =>
    if c = '/' then (⟨acc.reverse⟩ : String) :: splitSlashAux cs []
    else splitSlashAux cs (c :: acc)

/-- Segments of a relative path such as `"refs/heads/master"`. -/
def pathSegs (p : String) : List String :=
  (splitSlashAux p.data []).filter (fun s => s ≠ "")

/-- `Ref.resolve(repo, path)` (lines 348-354), fuel-bounded because the
source recurses with **no depth limit**: read
`repo.file(path).read_text()`, strip, and if the content starts with
`"ref:"` recurse on `content[5:]`, else return the content.
Reading a missing file raises `FileNotFoundError` (a path descending
through a regular file is folded into the same case), reading a
directory `IsADirectoryError`, and undecodable bytes
`UnicodeDecodeError`. -/
def refResolve : Nat → FSNode → String → Option (Except PyErr String)
  | 0, _, _ => none
  | fuel + 1, g, path =>
    match fsLookup g (pathSegs path) with
    | none => some (.error .fileNotFoundError)
    | some (.dir _) => some (.error .isADirectoryError)
    | some (.file c) =>
      match pyDecodeUtf8 c with
      | none => some (.error .unicodeDecodeError)
      | some s =>
        let r := pyStrip s
        if pyStartsWith r "ref:" then refResolve fuel g (pyStrDrop r 5)
        else some (.ok r)

/-- The body of `Ref.resolve` applied to a file whose bytes are already
in hand (as when `find_all` calls `Ref.resolve(repo, p)` on a file it
just listed). -/
def refResolveContent (fuel : Nat) (g : FSNode) (c : List Nat) :
    Option (Except PyErr String) :=
  match pyDecodeUtf8 c with
  | none => some (.error .unicodeDecodeError)
  | some s =>
    let r := pyStrip s
    if pyStartsWith r "ref:" then refResolve fuel g (pyStrDrop r 5)
    else some (.ok r)

/-- A value of the nested `OrderedDict` returned by `Ref.find_all`:
either a resolved OID string (a file) or a subtree (a directory). -/
inductive RefVal where
  | str (s : String)
  | dict (entries : List (String × RefVal))

/-- The body of `Ref.find_all` (lines 356-368) over the sorted listing
of one directory: directories recurse, files resolve.  (Fuel is consumed
on every step so the recursion is structural; theorems pick it large
enough.) -/
def findAllList : Nat → FSNode → List (String × FSNode) →
    Option (Except PyErr (List (String × RefVal)))
  | 0, _, _ => none
  | _ + 1, _, [] => some (.ok [])
  | fuel + 1, g, (n, FSNode.file c) :: rest =>
    match refResolveContent fuel g c with
    | none => none
    | some (.error e) => some (.error e)
    | some (.ok v) =>
      match findAllList fuel g rest with
      | none => none
      | some (.error e) => some (.error e)
      | some (.ok m) => some (.ok ((n, RefVal.str v) :: m))
  | fuel + 1, g, (n, FSNode.dir cs) :: rest =>
    match findAllList fuel g (sortByKey Prod.fst cs) with
    | none => none
    | some (.error e) => some (.error e)
    | some (.ok sub) =>
      match findAllList fuel g rest with
      | none => none
      | some (.error e) => some (.error e)
      | some (.ok m) => some (.ok ((n, RefVal.dict sub) :: m))

/-- `Ref.find_all(repo)` (no explicit path): start at `repo.dir("refs")`;
a missing `refs` directory makes `sorted(path.glob("*"))` an attribute
access on `None`. -/
def findAllTop (fuel : Nat) (g : FSNode) :
    Option (Except PyErr (List (String × RefVal))) :=
  match fsLookup g ["refs"] with
  | none => some (.error .attributeError)
  | some (.file _) => some (.error .notADirectoryError)
  | some (.dir cs) => findAllList fuel g (sortByKey Prod.fst cs)

/-- Python truthiness of `res` in `res = res or inner(v)`: `None` and
`""` are falsy. -/
def pyTruthyStr : Option String → Bool
  | none => false
  | some s => s ≠ ""

/-- Python `a or b` on optional strings. -/
def pyOr (a b : Option String) : Option String :=
  if pyTruthyStr a then a else b

/-- The `inner(refs)` search of `object_find`'s ref branch
(lines 113-120), with its accumulator `res`: a *later* matching leaf
overwrites `res` unconditionally, while an earlier truthy `res` survives
subtree results via the short-circuiting `res = res or inner(v)`.
(Fueled; the inner result is `some res` on normal return.) -/
def refInnerLoop (name : String) : Nat → Option String →
    List (String × RefVal) → Option (Option String)
  | 0, _, _ => none
  | _ + 1, res, [] => some res
  | fuel + 1, res, (k, RefVal.str v) :: rest =>
    refInnerLoop name fuel (if k = name then some v else res) rest
  | fuel + 1, res, (_, RefVal.dict d) :: rest =>
    if pyTruthyStr res then refInnerLoop name fuel res rest
    else
      match refInnerLoop name fuel none d with
      | none => none
      | some sub => refInnerLoop name fuel sub rest

/-- Modelled from the spec (§4.8), for comparison with the source's
`inner`: return the *first* leaf whose name equals `name` in the
depth-first traversal of the (sorted) ref tree, and stop.  (Fueled.) -/
def specFirstRefMatch (name : String) : Nat → List (String × RefVal) →
    Option (Option String)
  | 0, _ => none
  | _ + 1, [] => some none
  | fuel + 1, (k, RefVal.str v) :: rest =>
    if k = name then some (some v) else specFirstRefMatch name fuel rest
  | fuel + 1, (_, RefVal.dict d) :: rest =>
    match specFirstRefMatch name fuel d with
    | none => none
    | some (some v) => some (some v)
    | some none => specFirstRefMatch name fuel rest

/-- `^[0-9A-Fa-f]{4,40}$` (line 95).  (`name` has already been stripped,
so the `$`-before-final-newline subtlety of `re` cannot arise.) -/
def isHexChar (c : Char) : Bool :=
  ('0' ≤ c && c ≤ '9') || ('a' ≤ c && c ≤ 'f') || ('A' ≤ c && c ≤ 'F')

/-- The full regex test of `object_find`. -/
def isHex4to40 (s : String) : Bool :=
  4 ≤ s.length && s.length ≤ 40 && s.data.all isHexChar

/-- `Repository.object_find(name)` with `fmt=None` (lines 89-127):
strip; `HEAD` resolves the symbolic ref; a 40-char hex name is accepted
as-is (lowercased, no existence check); a 4-39-char hex name is matched
against the shard directory listing; anything else searches the ref
tree.  A missing shard directory makes `self.dir(...)` return `None`,
and `None.glob` raises `AttributeError`. -/
def objectFind (fuel : Nat) (g : FSNode) (name0 : String) :
    Option (Except PyErr String) :=
  let name := pyStrip name0
  if name = "HEAD" then refResolve fuel g "HEAD"
  else if isHex4to40 name then
    if name.length = 40 then some (.ok (pyLower name))
    else
      let pfx := pyLower (pyStrTake name 2)
      let body := pyLower (pyStrDrop name 2)
      match fsLookup g ["objects", pfx] with
      | none => some (.error .attributeError)
      | some (.file _) => some (.error .notADirectoryError)
      | some (.dir cs) =>
        match (cs.map Prod.fst).filter (fun n => pyStartsWith n body)
            |>.map (fun n => pfx ++ n) with
        | [] => some (.error .shortHashNoMatch)
        | [c] => some (.ok c)
        | _ => some (.error .ambiguousShortHash)
  else
    match findAllTop fuel g with
    | none => none
    | some (.error e) => some (.error e)
    | some (.ok t) =>
      match refInnerLoop name fuel none t with
      | none => none
      | some none => some (.error .noMatch)
      | some (some s) => some (.ok s)

/-! ## Object reading (`BaseObject.read`, libwyag.py lines 159-181) -/

/-- A parsed typed object: the result of dispatching on the envelope's
kind and running the kind's `deserialize`. -/
inductive GitObj where
  | blob (data : List Nat)
  | commit (dct : KVDict)
  | tag (dct : KVDict)
  | tree (entries : List TreeEntry)
deriving DecidableEq, Repr

/-- Envelope decode and dispatch (lines 165-173 and `__get_cls`):
find the first `0x20` and `0x00`, parse kind and decimal size, check
`size == len(raw) - (delim_00 + 1)`, then run the kind's payload
decoder.  An unknown kind hits `__get_cls`'s `raise`, whose f-string
references the undefined local `sha` — a `NameError`. -/
def parseObject (fuel : Nat) (raw : List Nat) : Option (Except PyErr GitObj) :=
  let d20 := pyFind raw 0x20 0
  let d00 := pyFind raw 0x00 0
  match pyDecodeAscii (pySlice raw 0 d20) with
  | none => some (.error .unicodeDecodeError)
  | some fmt =>
    match pyDecodeAscii (pySlice raw d20 d00) with
    | none => some (.error .unicodeDecodeError)
    | some sizeStr =>
      match pyIntDec? sizeStr with
      | none => some (.error .valueError)
      | some size =>
        if size ≠ (raw.length : Int) - (d00 + 1) then
          some (.error .malformedObject)
        else
          let payload := pySliceFrom raw (d00 + 1)
          if fmt = "blob" then some (.ok (GitObj.blob payload))
          else if fmt = "commit" then
            (kvlmParse fuel payload).map (Except.map GitObj.commit)
          else if fmt = "tag" then
            (kvlmParse fuel payload).map (Except.map GitObj.tag)
          else if fmt = "tree" then
            (treeDeserialize fuel payload 0 []).map (Except.map GitObj.tree)
          else some (.error .nameError)

/-- The part of `BaseObject.read` that follows name resolution
(lines 162-173): `path = repo.object(sha)` is
`file("objects", sha[:2], sha[2:])`; a missing shard directory makes
`file` return `None` (→ `AttributeError` on `read_bytes`), a missing
object file raises `FileNotFoundError`; the bytes are then
zlib-decompressed (the codec is passed in as `inflate`) and parsed. -/
def objectReadSha (fuel : Nat) (inflate : List Nat → Except PyErr (List Nat))
    (g : FSNode) (sha : String) : Option (Except PyErr GitObj) :=
  match fsLookup g ["objects", pyStrTake sha 2] with
  | none => some (.error .attributeError)
  | some (.file _) => some (.error .notADirectoryError)
  | some (.dir _) =>
    match fsLookup g ["objects", pyStrTake sha 2, pyStrDrop sha 2] with
    | none => some (.error .fileNotFoundError)
    | some (.dir _) => some (.error .isADirectoryError)
    | some (.file comp) =>
      match inflate comp with
      | .error e => some (.error e)
      | .ok raw => parseObject fuel raw

/-- `BaseObject.read(repo, name)` (lines 159-173): the *first* statement
is `sha = repo.object_find(name)`; only then is the store touched. -/
def objectRead (fuel : Nat) (inflate : List Nat → Except PyErr (List Nat))
    (g : FSNode) (name : String) : Option (Except PyErr GitObj) :=
  match objectFind fuel g name with
  | none => none
  | some (.error e) => some (.error e)
  | some (.ok sha) => objectReadSha fuel inflate g sha

/-- 40 lowercase hex characters: the data model's textual OID form. -/
def isLowerHexChar (c : Char) : Bool :=
  ('0' ≤ c && c ≤ '9') || ('a' ≤ c && c ≤ 'f')

/-- `isLowerHex40 s`: `s` is a well-formed textual OID. -/
def isLowerHex40 (s : String) : Bool :=
  s.length = 40 && s.data.all isLowerHexChar

/-! ## Index codec (`Index.read`, libwyag.py lines 440-513) -/

/-- One staged file (`IndexEntry.__init__`). -/
structure IndexEntry where
  ctimeSec : Nat
  ctimeNsec : Nat
  mtimeSec : Nat
  mtimeNsec : Nat
  dev : Nat
  ino : Nat
  modeType : Nat
  modePerm : Nat
  uid : Nat
  gid : Nat
  size : Nat
  sha : String
  path : String
deriving DecidableEq, Repr

/-- One cached-tree line (`IndexExtTreeEntry.__init__`); `sha = none`
models the invalidated (`num_entry == -1`) case. -/
structure IndexExtTreeEntry where
  path : String
  numEntry : Int
  numTree : Int
  sha : Option String
deriving DecidableEq, Repr

/-- The parsed index (`Index.__init__`). -/
structure Index where
  entries : List IndexEntry
  tree : Option (List IndexExtTreeEntry)
deriving DecidableEq, Repr

/-- The per-entry body loop of `Index.read` (lines 458-475), recursing
on the remaining entry count.  Returns the entries in order and the
offset after the final padding. -/
def indexReadEntries : Nat → List Nat → Int → List IndexEntry →
    Except PyErr (List IndexEntry × Int)
  | 0, _, offset, acc => .ok (acc, offset)
  | n + 1, raw, offset, acc =>
    let d00 := pyFind raw 0x00 (offset + 62)
    match byteToHex (pySlice raw (offset + 40) (offset + 60)) with
    | .error e => .error e
    | .ok sha =>
      match pyDecodeUtf8 (pySlice raw (offset + 62) d00) with
      | none => .error .unicodeDecodeError
      | some path =>
        let entry : IndexEntry :=
          { ctimeSec := fromBytesBE (pySlice raw (offset + 0) (offset + 4))
            ctimeNsec := fromBytesBE (pySlice raw (offset + 4) (offset + 8))
            mtimeSec := fromBytesBE (pySlice raw (offset + 8) (offset + 12))
            mtimeNsec := fromBytesBE (pySlice raw (offset + 12) (offset + 16))
            dev := fromBytesBE (pySlice raw (offset + 16) (offset + 20))
            ino := fromBytesBE (pySlice raw (offset + 20) (offset + 24))
            modeType := fromBytesBE (pySlice raw (offset + 26) (offset + 27)) / 16
            modePerm := fromBytesBE (pySlice raw (offset + 26) (offset + 28)) % 512
            uid := fromBytesBE (pySlice raw (offset + 28) (offset + 32))
            gid := fromBytesBE (pySlice raw (offset + 32) (offset + 36))
            size := fromBytesBE (pySlice raw (offset + 36) (offset + 40))
            sha := sha
            path := path }
        indexReadEntries n raw ((8 - (d00 - offset) % 8) + d00) (acc ++ [entry])

/-- The inner `while offset < endmark` loop of the `TREE` extension
parser (lines 490-505). -/
def indexTreeLoop : Nat → List Nat → Int → Int → List IndexExtTreeEntry →
    Option (Except PyErr (List IndexExtTreeEntry × Int))
  | 0, _, _, _, _ => none
  | fuel + 1, raw, offset, endmark, acc =>
    if offset < endmark then
      let d00 := pyFind raw 0x00 offset
      let d20 := pyFind raw 0x20 d00
      let d0a := pyFind raw 0x0a d00
      match pyDecodeUtf8 (pySlice raw offset d00) with
      | none => some (.error .unicodeDecodeError)
      | some path =>
        match pyDecodeUtf8 (pySlice raw (d00 + 1) d20) with
        | none => some (.error .unicodeDecodeError)
        | some numEntryStr =>
          match pyIntDec? numEntryStr with
          | none => some (.error .valueError)
          | some numEntry =>
            match pyDecodeUtf8 (pySlice raw (d20 + 1) d0a) with
            | none => some (.error .unicodeDecodeError)
            | some numTreeStr =>
              match pyIntDec? numTreeStr with
              | none => some (.error .valueError)
              | some numTree =>
                if numEntry = -1 then
                  indexTreeLoop fuel raw (d0a + 1) endmark
                    (acc ++ [⟨path, numEntry, numTree, none⟩])
                else
                  match byteToHex (pySlice raw (d0a + 1) (d0a + 21)) with
                  | .error e => some (.error e)
                  | .ok sha =>
                    indexTreeLoop fuel raw (d0a + 21) endmark
                      (acc ++ [⟨path, numEntry, numTree, some sha⟩])
    else some (.ok (acc, offset))

/-- The extension loop of `Index.read` (lines 478-507): decode the
4-byte signature (a decode failure is taken as the start of the trailing
checksum and breaks the loop — the bare `except`), read the size, parse
a `TREE` block or fall through, then `assert offset == endmark`.
The non-`TREE` arm never advances `offset` past the data. -/
def indexExtLoop : Nat → List Nat → Int → Option (List IndexExtTreeEntry) →
    Option (Except PyErr (Option (List IndexExtTreeEntry)))
  | 0, _, _, _ => none
  | fuel + 1, raw, offset, tree =>
    match pyDecodeUtf8 (pySlice raw offset (offset + 4)) with
    | none => some (.ok tree)
    | some etype =>
      let size := fromBytesBE (pySlice raw (offset + 4) (offset + 8))
      let off2 := offset + 8
      let endmark := off2 + (size : Int)
      if etype = "TREE" then
        match indexTreeLoop (fuel + 1) raw off2 endmark [] with
        | none => none
        | some (.error e) => some (.error e)
        | some (.ok (es, off3)) =>
          if off3 = endmark then indexExtLoop fuel raw off3 (some es)
          else some (.error .assertionError)
      else
        if off2 = endmark then indexExtLoop fuel raw off2 tree
        else some (.error .assertionError)

/-- `Index.read` (lines 442-509), with the SHA-1 function passed in
(`hashlib.sha1(...).digest()` is external to the embedding): check the
`DIRC` magic, version 2, the trailing checksum over `raw[:-20]`, parse
`count` entries, then the extensions. -/
def indexRead (fuel : Nat) (sha1 : List Nat → List Nat) (raw : List Nat) :
    Option (Except PyErr Index) :=
  if pySlice raw 0 4 ≠ strBytes "DIRC" then some (.error .assertionError)
  else if fromBytesBE (pySlice raw 4 8) ≠ 2 then some (.error .assertionError)
  else if sha1 (pySlice raw 0 (-20)) ≠ pySlice raw (-20) (raw.length : Int) then
    some (.error .assertionError)
  else
    match indexReadEntries (fromBytesBE (pySlice raw 8 12)) raw 12 [] with
    | .error e => some (.error e)
    | .ok (entries, offset) =>
      match indexExtLoop fuel raw offset none with
      | none => none
      | some (.error e) => some (.error e)
      | some (.ok tree) => some (.ok ⟨entries, tree⟩)

/-! ## Statement material: well-formed KVLM payloads, ref chains, and
concrete fixtures used by the theorems below -/

/-- One wire header line `key ++ 0x20 ++ value ++ 0x0a` (bytes). -/
def kvlmHeaderBytes (p : List Nat × List Nat) : List Nat :=
  p.1 ++ [0x20] ++ p.2 ++ [0x0a]

/-- A KVLM payload with the given header lines, the blank line, and the
message bytes (§4.4 grammar, without folded continuations). -/
def mkKvlmPayload (hs : List (List Nat × List Nat)) (msg : List Nat) : List Nat :=
  (hs.map kvlmHeaderBytes).flatten ++ [0x0a] ++ msg

/-- A well-formed simple header: non-empty ASCII key without space or
newline, ASCII value without newline. -/
def wfKvlmHeader (p : List Nat × List Nat) : Prop :=
  p.1 ≠ [] ∧ (∀ b ∈ p.1, b < 128 ∧ b ≠ 0x20 ∧ b ≠ 0x0a) ∧
    (∀ b ∈ p.2, b < 128 ∧ b ≠ 0x0a)

/-- Well-formedness of a simple header is decidable (used by witnesses). -/
instance (p : List Nat × List Nat) : Decidable (wfKvlmHeader p) := by
  unfold wfKvlmHeader
  infer_instance

/-- `isRefChain g ps oid`: the files at the paths `ps` form a symbolic
ref chain through `g` ending at a direct ref whose stripped content is
`oid`. -/
def isRefChain (g : FSNode) : List String → String → Prop
  | [], _ => False
  | [p], oid =>
    ∃ c s, fsLookup g (pathSegs p) = some (.file c) ∧
      pyDecodeUtf8 c = some s ∧ pyStrip s = oid ∧
      pyStartsWith oid "ref:" = false
  | p :: q :: rest, oid =>
    (∃ c s, fsLookup g (pathSegs p) = some (.file c) ∧
      pyDecodeUtf8 c = some s ∧ pyStrip s = "ref: " ++ q) ∧
    isRefChain g (q :: rest) oid

/-- A gitdir whose `refs/a` and `refs/b` are a 2-cycle of symbolic
refs. -/
def cycleGit : FSNode :=
  .dir [("HEAD", .file (strBytes "ref: refs/a\n")),
        ("refs", .dir [("a", .file (strBytes "ref: refs/b\n")),
                       ("b", .file (strBytes "ref: refs/a\n"))])]

/-- A 3-step chain `HEAD → refs/heads/master → oid`, for the chain
witness. -/
def chainGit : FSNode :=
  .dir [("HEAD", .file (strBytes "ref: refs/heads/master\n")),
        ("refs", .dir [("heads", .dir [("master",
          .file (strBytes "aaaaaaaaaaaaaaaaaaaaaaaaaaaaaaaaaaaaaaaa\n"))])])]

/-- A gitdir whose ref tree holds two leaves named `x`: `refs/a/x`
(earlier in the traversal) and `refs/x` (later, same directory level as
`a`). -/
def refSearchGit : FSNode :=
  .dir [("refs", .dir [
    ("a", .dir [("x", .file (strBytes
      "aaaaaaaaaaaaaaaaaaaaaaaaaaaaaaaaaaaaaaaa\n"))]),
    ("x", .file (strBytes
      "bbbbbbbbbbbbbbbbbbbbbbbbbbbbbbbbbbbbbbbb\n"))])]

/-- The sorted ref-tree value `find_all` produces for `refSearchGit`. -/
def refSearchTree : List (String × RefVal) :=
  [("a", RefVal.dict [("x", RefVal.str "aaaaaaaaaaaaaaaaaaaaaaaaaaaaaaaaaaaaaaaa")]),
   ("x", RefVal.str "bbbbbbbbbbbbbbbbbbbbbbbbbbbbbbbbbbbbbbbb")]

/-- A repository with an object store that has no `ab` shard
directory. -/
def shardMissingGit : FSNode :=
  .dir [("objects", .dir [("cd", .dir [("ef00", .file [])])]),
        ("refs", .dir [])]

/-- A repository whose `ab` shard holds exactly one object file
`abcdef00…` (plus an unrelated one), for the short-hash witness. -/
def shardGit : FSNode :=
  .dir [("objects", .dir [("ab", .dir [
          ("cdef00000000000000000000000000000000ee", .file []),
          ("ff000000000000000000000000000000000000", .file [])])]),
        ("refs", .dir [])]

/-- A repository for the `object_read` witness: `HEAD` resolves to a
full OID whose object is a stored blob. -/
def readGit : FSNode :=
  .dir [("HEAD", .file (strBytes "ref: refs/heads/master\n")),
        ("refs", .dir [("heads", .dir [("master",
          .file (strBytes "aaaaaaaaaaaaaaaaaaaaaaaaaaaaaaaaaaaaaaaa\n"))])]),
        ("objects", .dir [("aa", .dir [
          ("aaaaaaaaaaaaaaaaaaaaaaaaaaaaaaaaaaaaaa",
            .file (strBytes "blob 2\x00hi"))])])]

/-- A stand-in decompressor for the `object_read` theorems: the stored
fixture bytes are already the framed object. -/
def inflId (c : List Nat) : Except PyErr (List Nat) := .ok c

/-- A stand-in SHA-1 for the index fixture (the hash itself is external
to the embedding; the fixture's trailer is this constant). -/
def idxSha1Stub (_ : List Nat) : List Nat := List.replicate 20 1

/-- An index file: `DIRC`, version 2, zero entries, one non-`TREE`
extension (`XXXX`, size 4, data `abcd`), then the 20-byte trailer. -/
def idxNonTreeRaw : List Nat :=
  strBytes "DIRC" ++ [0, 0, 0, 2] ++ [0, 0, 0, 0] ++
    strBytes "XXXX" ++ [0, 0, 0, 4] ++ strBytes "abcd" ++ List.replicate 20 1

/-! ## Theorems -/

/-- C1 (code bug): the claim says `byte_to_hex` always yields exactly 40
lowercase hex characters, including for fingerprints with leading zero
bytes.  The code uses `hex(int.from_bytes(...))`, which drops leading
zeros: on the 20-byte fingerprint `00 ab ab … ab` it returns the 38-char
string `"abab…ab"`, not a 40-char OID. -/
theorem byteToHex_leading_zero_drop :
    byteToHex (0 :: List.replicate 19 0xab) =
      .ok "ababababababababababababababababababab" ∧
    ("ababababababababababababababababababab" : String).length = 38 :=
  ⟨by decide, by decide⟩

/-- C2 (code bug): the claim says the decoder strips the leading space of
every `0x0A 0x20` continuation line, and `parse(serialize(C)) = C`.
Serializing the commit `{k ↦ "A\nB", "" ↦ "msg"}` folds the value onto
two physical lines, but re-parsing returns `"A"` for `k` (the
continuation test `raw[end+1] == b" "` compares an `int` with `bytes`
and is always false), so the folded line is lost and the round trip
fails. -/
theorem kvlm_continuation_not_stripped :
    commitSerialize [("k", KV.s "A\x0aB"), ("", KV.s "msg")] =
      .ok (strBytes "k A\x0a B\x0a\x0amsg") ∧
    kvlmParse 8 (strBytes "k A\x0a B\x0a\x0amsg") =
      some (.ok [("k", KV.s "A"), ("", KV.s "msg")]) :=
  ⟨by decide, by decide⟩

/-- C3 (code bug): the claim says a key appearing twice decodes to the
list of both values in order.  On a payload with two `parent` headers
the duplicate branch executes `dct[key] = [dc[key], value]` with the
misspelled local `dc` and raises `NameError` instead. -/
theorem kvlm_duplicate_key_name_error :
    kvlmParse 8 (strBytes "parent 1111\x0aparent 2222\x0a\x0am") =
      some (.error .nameError) := by decide

/-- C4 (counterexample): the decoder is not total over arbitrary message
bytes: a well-formed payload whose message contains the non-ASCII byte
`0xC3` fails with `UnicodeDecodeError` (`raw[start+1:].decode("ascii")`),
refuting the claim for bytes outside ASCII. -/
theorem kvlm_nonascii_message_fails :
    kvlmParse 8 (strBytes "tree ab\x0a\x0a" ++ [0xC3]) =
      some (.error .unicodeDecodeError) := by decide

/-- C5 (counterexample): the write path does not serialize in canonical
sorted order.  The stored list `[b-file, a-dir]` is canonically the
reverse (`a` is directory-typed, keyed `"a/" < "b"`), and the source's
`Tree.serialize` output differs from the canonically-sorted output — so
the two permutations also frame to different `BaseObject.write` bytes,
i.e. different OIDs. -/
theorem tree_serialize_ignores_canonical_order :
    treeCanonicalSortSpec [treeEntryB, treeEntryA] = [treeEntryA, treeEntryB] ∧
    treeSerialize [treeEntryB, treeEntryA] ≠
      treeSerialize (treeCanonicalSortSpec [treeEntryB, treeEntryA]) ∧
    treeWriteData [treeEntryB, treeEntryA] ≠ treeWriteData [treeEntryA, treeEntryB] :=
  ⟨by decide, by decide, by decide⟩

/-- C5 (amended): `Tree.serialize` emits the entries in the *stored*
order — serialization distributes over list append — so equal stored
entry lists give equal payloads (and OIDs), while permuted lists are
serialized differently (no canonical re-sort happens; see the
counterexample). -/
theorem treeSerialize_append (l1 l2 : List TreeEntry) :
    treeSerialize (l1 ++ l2) =
      match treeSerialize l1 with
      | .error e => .error e
      | .ok a =>
        match treeSerialize l2 with
        | .error e => .error e
        | .ok b => .ok (a ++ b) := by
  induction l1 with
  | nil =>
    simp only [List.nil_append, treeSerialize]
    cases treeSerialize l2 <;> simp
  | cons e rest ih =>
    cases he : treeEntrySerialize e with
    | error er => simp [treeSerialize, he]
    | ok b =>
      cases hr : treeSerialize rest with
      | error er => simp [treeSerialize, he, hr, ih]
      | ok bs =>
        cases hl : treeSerialize l2 with
        | error er => simp [treeSerialize, he, hr, hl, ih]
        | ok bs2 => simp [treeSerialize, he, hr, hl, ih]

/-- C6 (counterexample): on a 2-cycle of symbolic refs the resolver is
still running after 11 steps (the claimed bound of 10 exceeded) and
after 100 steps: `Ref.resolve` recurses with no depth bound and never
fails with a `RefCycle` error. -/
theorem refResolve_two_cycle_no_refcycle :
    refResolve 11 cycleGit "refs/a" = none ∧
    refResolve 100 cycleGit "refs/a" = none :=
  ⟨by decide, by decide⟩

/-- C7 (code bug): the claim (and spec §4.8/§9) says the first leaf
found in the deterministic traversal wins.  In `refSearchGit` the
traversal meets `refs/a/x ↦ "aaa…"` before `refs/x ↦ "bbb…"`, but
`object_find("x")` returns `"bbb…"`: the loop's `res = v` overwrites an
earlier match whenever a later leaf at the same level matches. -/
theorem objectFind_ref_search_last_match :
    objectFind 9 refSearchGit "x" =
      some (.ok "bbbbbbbbbbbbbbbbbbbbbbbbbbbbbbbbbbbbbbbb") ∧
    findAllTop 9 refSearchGit = some (.ok refSearchTree) ∧
    specFirstRefMatch "x" 9 refSearchTree =
      some (some "aaaaaaaaaaaaaaaaaaaaaaaaaaaaaaaaaaaaaaaa") ∧
    refInnerLoop "x" 9 none refSearchTree =
      some (some "bbbbbbbbbbbbbbbbbbbbbbbbbbbbbbbbbbbbbbbb") :=
  ⟨by decide, rfl, by decide, by decide⟩

/-- C8 (counterexample): when the shard directory for a short hex name
does not exist, `object_find` does not fail with the `NoMatch` error:
`self.dir("objects", prefix)` returns `None` and `None.glob(...)`
raises `AttributeError`. -/
theorem objectFind_missing_shard_attribute_error :
    objectFind 5 shardMissingGit "abcd" = some (.error .attributeError) ∧
    PyErr.attributeError ≠ PyErr.shortHashNoMatch :=
  ⟨by decide, by decide⟩

/-- C9 (code bug): the claim (and spec §4.9) says non-`TREE` extension
blocks are tolerated and skipped.  On an index with zero entries and a
single `XXXX` extension of size 4, the reader leaves `offset` at the
start of the data and `assert offset == endmark` fails: an
`AssertionError`, not a successful read with `tree = None`. -/
theorem indexRead_nontree_extension_assert :
    indexRead 10 idxSha1Stub idxNonTreeRaw = some (.error .assertionError) := by
  decide

theorem char_toNat_ofNat (n : Nat) (h : n < 0xd800) : (Char.ofNat n).toNat = n := by
  have hv : n.isValidChar := Or.inl h
  rw [Char.ofNat, dif_pos hv]
  rfl

theorem isHexChar_not_ws (c : Char) (h : isHexChar c = true) : isPyWs c = false := by
  unfold isHexChar at h
  simp only [Bool.or_eq_true, Bool.and_eq_true, decide_eq_true_eq] at h
  have h0 : 48 ≤ c.toNat ∧ c.toNat ≤ 57 ∨ 97 ≤ c.toNat ∧ c.toNat ≤ 102 ∨
      65 ≤ c.toNat ∧ c.toNat ≤ 70 := by
    rcases h with (⟨h1, h2⟩ | ⟨h1, h2⟩) | ⟨h1, h2⟩
    · exact Or.inl ⟨h1, h2⟩
    · exact Or.inr (Or.inl ⟨h1, h2⟩)
    · exact Or.inr (Or.inr ⟨h1, h2⟩)
  unfold isPyWs
  simp only [Bool.or_eq_false_iff, beq_eq_false_iff_ne]
  refine ⟨⟨⟨⟨⟨?_, ?_⟩, ?_⟩, ?_⟩, ?_⟩, ?_⟩ <;>
    · intro hc
      subst hc
      revert h0
      decide

theorem dropWhile_eq_self_of_all {α : Type} (p : α → Bool) (l : List α)
    (h : ∀ x ∈ l, p x = false) : l.dropWhile p = l := by
  cases l with
  | nil => rfl
  | cons a as => simp [List.dropWhile, h a (by simp)]

theorem pyStrip_eq_self (s : String) (h : ∀ c ∈ s.data, isPyWs c = false) :
    pyStrip s = s := by
  cases s with
  | mk l =>
    unfold pyStrip
    rw [dropWhile_eq_self_of_all _ _ h, dropWhile_eq_self_of_all, List.reverse_reverse]
    intro x hx
    exact h x (by simpa using hx)

/-- C8 (amended): for every hex name of length 4-39, `object_find`
shards by the lowercased first two characters and matches the remaining
prefix against the shard directory listing: zero matches fail with the
short-hash `NoMatch` error, a unique match returns its OID, several
matches fail with `Ambiguous` — but a *missing* shard directory raises
`AttributeError` (`None.glob`), not `NoMatch` (see counterexample). -/
theorem objectFind_short_hex (fuel : Nat) (g : FSNode) (name : String)
    (h4 : 4 ≤ name.length) (h39 : name.length ≤ 39)
    (hhex : name.data.all isHexChar = true) :
    (fsLookup g ["objects", pyLower (pyStrTake name 2)] = none →
      objectFind fuel g name = some (.error .attributeError)) ∧
    (∀ cs, fsLookup g ["objects", pyLower (pyStrTake name 2)] = some (.dir cs) →
      (((cs.map Prod.fst).filter
          (fun n => pyStartsWith n (pyLower (pyStrDrop name 2)))) = [] →
        objectFind fuel g name = some (.error .shortHashNoMatch)) ∧
      (∀ n, ((cs.map Prod.fst).filter
          (fun n => pyStartsWith n (pyLower (pyStrDrop name 2)))) = [n] →
        objectFind fuel g name =
          some (.ok (pyLower (pyStrTake name 2) ++ n))) ∧
      (2 ≤ ((cs.map Prod.fst).filter
          (fun n => pyStartsWith n (pyLower (pyStrDrop name 2)))).length →
        objectFind fuel g name = some (.error .ambiguousShortHash))) := by
  have hstrip : pyStrip name = name := by
    apply pyStrip_eq_self
    intro c hc
    exact isHexChar_not_ws c (by
      have := (List.all_eq_true.mp hhex) c hc
      simpa using this)
  have hne : name ≠ "HEAD" := by
    intro h
    subst h
    revert hhex
    decide
  have hhx : isHex4to40 name = true := by
    unfold isHex4to40
    simp only [Bool.and_eq_true, decide_eq_true_eq]
    exact ⟨⟨h4, by omega⟩, hhex⟩
  have hl40 : name.length ≠ 40 := by omega
  constructor
  · intro hmiss
    simp only [objectFind, hstrip, if_neg hne, hhx, if_true, if_neg hl40, hmiss]
  · intro cs hdir
    refine ⟨?_, ?_, ?_⟩
    · intro hnil
      simp only [objectFind, hstrip, if_neg hne, hhx, if_true, if_neg hl40, hdir]
      rw [show ((cs.map Prod.fst).filter
          (fun n => pyStartsWith n (pyLower (pyStrDrop name 2)))).map
          (fun n => pyLower (pyStrTake name 2) ++ n) = [] by rw [hnil]; rfl]
    · intro n hone
      simp only [objectFind, hstrip, if_neg hne, hhx, if_true, if_neg hl40, hdir]
      rw [show ((cs.map Prod.fst).filter
          (fun n => pyStartsWith n (pyLower (pyStrDrop name 2)))).map
          (fun n => pyLower (pyStrTake name 2) ++ n) =
          [pyLower (pyStrTake name 2) ++ n] by rw [hone]; rfl]
    · intro hmany
      simp only [objectFind, hstrip, if_neg hne, hhx, if_true, if_neg hl40, hdir]
      rcases hcs : (cs.map Prod.fst).filter
          (fun n => pyStartsWith n (pyLower (pyStrDrop name 2))) with _ | ⟨a, _ | ⟨b, t⟩⟩
      · rw [hcs] at hmany; simp at hmany
      · rw [hcs] at hmany; simp at hmany
      · rfl

theorem pyStartsWith_refcolon (q : String) : pyStartsWith ("ref: " ++ q) "ref:" = true := by
  unfold pyStartsWith
  rw [String.data_append]
  rw [show ("ref: ").data = 'r' :: 'e' :: 'f' :: ':' :: ' ' :: [] from rfl]
  rw [show ("ref:").data = 'r' :: 'e' :: 'f' :: ':' :: [] from rfl]
  simp [List.isPrefixOf]

theorem pyStrDrop_refcolon (q : String) : pyStrDrop ("ref: " ++ q) 5 = q := by
  cases q with
  | mk l =>
    unfold pyStrDrop
    rw [String.data_append]
    rw [show ("ref: ").data = 'r' :: 'e' :: 'f' :: ':' :: ' ' :: [] from rfl]
    rfl

/-- C6 (amended): `Ref.resolve` follows symbolic-ref chains with *no*
recursion bound: every finite chain of paths `p :: ps` through the
gitdir resolves to its final OID in exactly `(p :: ps).length` steps —
in particular every chain of depth at most 10 — and a cyclic chain never
terminates (the counterexample); no `RefCycle` failure exists in the
code. -/
theorem refResolve_chain (g : FSNode) (p : String) (ps : List String) (oid : String)
    (h : isRefChain g (p :: ps) oid) :
    refResolve (p :: ps).length g p = some (.ok oid) := by
  induction ps generalizing p with
  | nil =>
    obtain ⟨c, s, hf, hd, hst, hns⟩ := h
    simp only [List.length_cons, List.length_nil, refResolve, hf, hd]
    rw [hst, if_neg (by simp [hns])]
  | cons q rest ih =>
    obtain ⟨⟨c, s, hf, hd, hst⟩, hchain⟩ := h
    simp only [List.length_cons, refResolve, hf, hd]
    rw [hst, if_pos (by simp [pyStartsWith_refcolon]), pyStrDrop_refcolon]
    have := ih q hchain
    simpa using this

theorem isLowerHexChar_hex (c : Char) (h : isLowerHexChar c = true) : isHexChar c = true := by
  unfold isLowerHexChar at h
  unfold isHexChar
  simp only [Bool.or_eq_true, Bool.and_eq_true, decide_eq_true_eq] at h ⊢
  rcases h with ⟨h1, h2⟩ | ⟨h1, h2⟩
  · exact Or.inl (Or.inl ⟨h1, h2⟩)
  · exact Or.inl (Or.inr ⟨h1, h2⟩)

theorem pyLowerChar_fix (c : Char) (h : isLowerHexChar c = true) : pyLowerChar c = c := by
  unfold isLowerHexChar at h
  simp only [Bool.or_eq_true, Bool.and_eq_true, decide_eq_true_eq] at h
  have h0 : 48 ≤ c.toNat ∧ c.toNat ≤ 57 ∨ 97 ≤ c.toNat ∧ c.toNat ≤ 102 := by
    rcases h with ⟨h1, h2⟩ | ⟨h1, h2⟩
    · exact Or.inl ⟨h1, h2⟩
    · exact Or.inr ⟨h1, h2⟩
  unfold pyLowerChar
  rw [if_neg]
  simp only [Bool.and_eq_true, decide_eq_true_eq, not_and]
  intro h1 h2
  have : (65 : Nat) ≤ c.toNat := h1
  have : c.toNat ≤ (90 : Nat) := h2
  omega

theorem pyLower_fix (s : String) (h : s.data.all isLowerHexChar = true) :
    pyLower s = s := by
  cases s with
  | mk l =>
    unfold pyLower
    congr 1
    have : ∀ m : List Char, m.all isLowerHexChar = true → m.map pyLowerChar = m := by
      intro m hm
      induction m with
      | nil => rfl
      | cons a as ih =>
        simp only [List.all_cons, Bool.and_eq_true] at hm
        simp [pyLowerChar_fix a hm.1, ih hm.2]
    exact this l h

/-- A full 40-char lowercase hex name is accepted by `object_find`
as-is, with no existence check against the store. -/
theorem objectFind_full_hex (fuel : Nat) (g : FSNode) (sha : String)
    (hsha : isLowerHex40 sha = true) :
    objectFind fuel g sha = some (.ok sha) := by
  unfold isLowerHex40 at hsha
  simp only [Bool.and_eq_true, decide_eq_true_eq] at hsha
  obtain ⟨hlen, hlow⟩ := hsha
  have hhex : sha.data.all isHexChar = true := by
    rw [List.all_eq_true] at hlow ⊢
    intro c hc
    exact isLowerHexChar_hex c (hlow c hc)
  have hstrip : pyStrip sha = sha := by
    apply pyStrip_eq_self
    intro c hc
    exact isHexChar_not_ws c (List.all_eq_true.mp hhex c hc)
  have hne : sha ≠ "HEAD" := by
    intro h
    subst h
    revert hlow
    decide
  have hhx : isHex4to40 sha = true := by
    unfold isHex4to40
    simp only [Bool.and_eq_true, decide_eq_true_eq]
    exact ⟨⟨by omega, by omega⟩, hhex⟩
  simp only [objectFind, hstrip, if_neg hne, hhx, if_true, hlen, if_pos rfl,
    pyLower_fix sha hlow]

/-- C10: `BaseObject.read` resolves its name through `object_find`
before touching the store, so whenever `object_find` accepts a name and
yields a (40-char lowercase) OID, reading by the name and reading by the
OID run the very same store access — and `object_find` is the identity
on such an OID, with no existence check, so reading an absent full OID
fails only when opening the object file (`AttributeError` for a missing
shard directory, `FileNotFoundError` for a missing file), never with a
`NoMatch` error. -/
theorem objectRead_resolves_via_find (fuel : Nat)
    (inflate : List Nat → Except PyErr (List Nat)) (g : FSNode)
    (name sha : String)
    (hfind : objectFind fuel g name = some (.ok sha))
    (hsha : isLowerHex40 sha = true) :
    objectRead fuel inflate g name = objectRead fuel inflate g sha ∧
    objectFind fuel g sha = some (.ok sha) ∧
    (fsLookup g ["objects", pyStrTake sha 2] = none →
      objectRead fuel inflate g sha = some (.error .attributeError)) ∧
    (∀ cs, fsLookup g ["objects", pyStrTake sha 2] = some (.dir cs) →
      fsLookup g ["objects", pyStrTake sha 2, pyStrDrop sha 2] = none →
      objectRead fuel inflate g sha = some (.error .fileNotFoundError)) := by
  have hfs : objectFind fuel g sha = some (.ok sha) :=
    objectFind_full_hex fuel g sha hsha
  refine ⟨?_, hfs, ?_, ?_⟩
  · simp only [objectRead, hfind, hfs]
  · intro hmiss
    simp only [objectRead, hfs, objectReadSha, hmiss]
  · intro cs hdir hfile
    simp only [objectRead, hfs, objectReadSha, hdir, hfile]

/-- Witness for `refResolve_chain`: the concrete 2-step chain
`HEAD → refs/heads/master → OID`. -/
theorem refResolve_chain_witness :
    isRefChain chainGit ["HEAD", "refs/heads/master"]
      "aaaaaaaaaaaaaaaaaaaaaaaaaaaaaaaaaaaaaaaa" ∧
    refResolve 2 chainGit "HEAD" =
      some (.ok "aaaaaaaaaaaaaaaaaaaaaaaaaaaaaaaaaaaaaaaa") := by
  have hc : isRefChain chainGit ["HEAD", "refs/heads/master"]
      "aaaaaaaaaaaaaaaaaaaaaaaaaaaaaaaaaaaaaaaa" := by
    refine ⟨⟨strBytes "ref: refs/heads/master\n", "ref: refs/heads/master\n",
      rfl, by decide, by decide⟩,
      ⟨strBytes "aaaaaaaaaaaaaaaaaaaaaaaaaaaaaaaaaaaaaaaa\n",
        "aaaaaaaaaaaaaaaaaaaaaaaaaaaaaaaaaaaaaaaa\n", rfl, by decide, by decide,
        by decide⟩⟩
  exact ⟨hc, refResolve_chain chainGit "HEAD" ["refs/heads/master"]
    "aaaaaaaaaaaaaaaaaaaaaaaaaaaaaaaaaaaaaaaa" hc⟩

/-- Witness for `objectFind_short_hex`: the unique-match case on a
concrete store. -/
theorem objectFind_short_hex_witness :
    4 ≤ ("abcd" : String).length ∧ ("abcd" : String).length ≤ 39 ∧
    ("abcd" : String).data.all isHexChar = true ∧
    objectFind 3 shardGit "abcd" =
      some (.ok "abcdef00000000000000000000000000000000ee") := by
  refine ⟨by decide, by decide, by decide, ?_⟩
  exact ((objectFind_short_hex 3 shardGit "abcd" (by decide) (by decide)
      (by decide)).2
      [("cdef00000000000000000000000000000000ee", FSNode.file []),
       ("ff000000000000000000000000000000000000", FSNode.file [])] rfl).2.1
    "cdef00000000000000000000000000000000ee" (by decide)

/-- Witness for `objectRead_resolves_via_find`: `HEAD` resolving to a
stored blob. -/
theorem objectRead_resolves_via_find_witness :
    objectFind 5 readGit "HEAD" =
      some (.ok "aaaaaaaaaaaaaaaaaaaaaaaaaaaaaaaaaaaaaaaa") ∧
    isLowerHex40 "aaaaaaaaaaaaaaaaaaaaaaaaaaaaaaaaaaaaaaaa" = true ∧
    objectRead 5 inflId readGit "HEAD" =
      objectRead 5 inflId readGit "aaaaaaaaaaaaaaaaaaaaaaaaaaaaaaaaaaaaaaaa" := by
  refine ⟨by decide, by decide, ?_⟩
  exact (objectRead_resolves_via_find 5 inflId readGit "HEAD"
    "aaaaaaaaaaaaaaaaaaaaaaaaaaaaaaaaaaaaaaaa" (by decide) (by decide)).1

theorem take_len_add {α : Type} (pre suf : List α) (n : Nat) :
    (pre ++ suf).take (pre.length + n) = pre ++ suf.take n := by
  induction pre with
  | nil => simp
  | cons a as ih => simp [List.take, Nat.succ_add, ih]

theorem drop_len_add {α : Type} (pre suf : List α) (n : Nat) :
    (pre ++ suf).drop (pre.length + n) = suf.drop n := by
  induction pre with
  | nil => simp
  | cons a as ih => simp [List.drop, Nat.succ_add, ih]

theorem pyIdx_natCast (len n : Nat) : pyIdx len (n : Int) = min n len := by
  unfold pyIdx
  rw [if_neg (by omega)]
  simp

theorem pyIdx_add (pl sl k : Nat) :
    pyIdx (pl + sl) ((pl + k : Nat) : Int) = pl + pyIdx sl (k : Int) := by
  rw [pyIdx_natCast, pyIdx_natCast]
  omega

theorem take_clamp {α : Type} (b len : Nat) (x : List α) (hx : x.length ≤ len) :
    x.take (min b len) = x.take b := by
  rcases Nat.le_total b len with h | h
  · rw [Nat.min_eq_left h]
  · rw [Nat.min_eq_right h]
    rw [List.take_of_length_le hx, List.take_of_length_le (by omega)]

theorem drop_clamp {α : Type} (a len : Nat) (x : List α) (hx : x.length ≤ len) :
    x.drop (min a len) = x.drop a := by
  rcases Nat.le_total a len with h | h
  · rw [Nat.min_eq_left h]
  · rw [Nat.min_eq_right h]
    rw [List.drop_eq_nil_of_le (by omega), List.drop_eq_nil_of_le (by omega)]

theorem pySlice_nat (l : List Nat) (a b : Nat) :
    pySlice l (a : Int) (b : Int) = (l.take b).drop a := by
  unfold pySlice
  rw [pyIdx_natCast, pyIdx_natCast]
  rw [take_clamp b l.length l (Nat.le_refl _)]
  rw [drop_clamp a l.length (l.take b) (by simp)]

theorem pySliceFrom_nat (l : List Nat) (n : Nat) :
    pySliceFrom l (n : Int) = l.drop n := by
  unfold pySliceFrom
  rw [pySlice_nat]
  rw [List.take_of_length_le (Nat.le_refl _)]

theorem pySlice_shift (pre suf : List Nat) (a b : Nat) :
    pySlice (pre ++ suf) ((pre.length + a : Nat) : Int)
      ((pre.length + b : Nat) : Int) = (suf.take b).drop a := by
  unfold pySlice
  rw [List.length_append, pyIdx_add, pyIdx_add, take_len_add, drop_len_add,
    pyIdx_natCast, pyIdx_natCast, take_clamp b suf.length suf (Nat.le_refl _),
    drop_clamp a suf.length (suf.take b) (by simp)]

theorem pySlice_prefix (pre suf : List Nat) (b : Nat) :
    pySlice (pre ++ suf) ((pre.length : Nat) : Int)
      ((pre.length + b : Nat) : Int) = suf.take b := by
  have h := pySlice_shift pre suf 0 b
  simpa using h

theorem pySliceFrom_shift (pre suf : List Nat) (a : Nat) :
    pySliceFrom (pre ++ suf) ((pre.length + a : Nat) : Int) = suf.drop a := by
  rw [pySliceFrom_nat, drop_len_add]

theorem findIdxFrom_eq_none (xs : List Nat) (b : Nat) (h : ∀ x ∈ xs, x ≠ b) :
    findIdxFrom xs b = none := by
  induction xs with
  | nil => rfl
  | cons a as ih =>
    unfold findIdxFrom
    rw [if_neg (by simpa using h a (by simp)),
      ih (fun x hx => h x (by simp [hx]))]
    rfl

theorem findIdxFrom_append (xs ys : List Nat) (b : Nat) (h : ∀ x ∈ xs, x ≠ b) :
    findIdxFrom (xs ++ ys) b = (findIdxFrom ys b).map (xs.length + ·) := by
  induction xs with
  | nil =>
    simp only [List.nil_append, List.length_nil]
    cases e : findIdxFrom ys b <;> simp
  | cons a as ih =>
    have hne : (a == b) = false := by simpa using h a (by simp)
    have step : findIdxFrom ((a :: as) ++ ys) b =
        (findIdxFrom (as ++ ys) b).map (· + 1) := by
      rw [List.cons_append]
      show (if a == b then some 0 else (findIdxFrom (as ++ ys) b).map (· + 1)) = _
      simp [hne]
    rw [step, ih (fun x hx => h x (by simp [hx]))]
    cases findIdxFrom ys b with
    | none => rfl
    | some i =>
      simp only [Option.map_some', List.length_cons, Option.some.injEq]
      omega

theorem findIdxFrom_append_self (xs ys : List Nat) (b : Nat)
    (h : ∀ x ∈ xs, x ≠ b) :
    findIdxFrom (xs ++ b :: ys) b = some xs.length := by
  rw [findIdxFrom_append xs _ b h]
  unfold findIdxFrom
  rw [if_pos (by simp)]
  rfl

theorem pyFind_shift_found (pre suf : List Nat) (b i : Nat)
    (h : findIdxFrom suf b = some i) :
    pyFind (pre ++ suf) b ((pre.length : Nat) : Int) =
      ((pre.length + i : Nat) : Int) := by
  unfold pyFind
  have hidx : pyIdx (pre ++ suf).length ((pre.length : Nat) : Int) = pre.length := by
    rw [List.length_append, pyIdx_natCast]
    omega
  have hdrop : (pre ++ suf).drop pre.length = suf := by
    simp
  rw [hidx, hdrop, h]

theorem listReplaceNlSp_id (l : List Nat) (h : ∀ b ∈ l, b ≠ 10) :
    listReplaceNlSp l = l := by
  induction l with
  | nil => rfl
  | cons a as ih =>
    rw [listReplaceNlSp.eq_def]
    split
    · rename_i rest heq
      exfalso
      exact h 10 (by rw [heq]; simp) rfl
    · rename_i x c rest hnot heq
      obtain ⟨rfl, rfl⟩ : a = c ∧ as = rest := by
        injection heq with h1 h2
        exact ⟨h1, h2⟩
      rw [ih (fun b hb => h b (by simp [hb]))]
    · rename_i x heq
      simp at heq

theorem kvlmContLoop_succ (fuel : Nat) (raw : List Nat) (e : Int) :
    kvlmContLoop (fuel + 1) raw e = some e := by
  simp [kvlmContLoop, pyEqIntBytes]

theorem charOfNat_toNat_lt (b : Nat) (h : b < 128) : (Char.ofNat b).toNat = b :=
  char_toNat_ofNat b (by omega)

theorem utf8EncodeChar_ascii (b : Nat) (h : b < 128) : utf8EncodeChar b = [b] := by
  unfold utf8EncodeChar
  rw [if_pos (by omega)]

theorem strBytes_asciiStr (l : List Nat) (h : ∀ b ∈ l, b < 128) :
    strBytes (asciiStr l) = l := by
  unfold strBytes asciiStr
  induction l with
  | nil => rfl
  | cons b bs ih =>
    simp only [List.map_cons, List.flatten_cons] at ih ⊢
    rw [charOfNat_toNat_lt b (h b (by simp)),
      utf8EncodeChar_ascii b (h b (by simp)),
      ih (fun x hx => h x (by simp [hx]))]
    rfl

theorem pyDecodeAscii_of_ascii (l : List Nat) (h : ∀ b ∈ l, b < 128) :
    pyDecodeAscii l = some (asciiStr l) := by
  unfold pyDecodeAscii
  rw [if_pos]
  exact List.all_eq_true.mpr (fun b hb => by simpa using h b hb)

theorem asciiStr_ne_empty (l : List Nat) (h : l ≠ []) : asciiStr l ≠ "" := by
  cases l with
  | nil => exact absurd rfl h
  | cons b bs =>
    intro hc
    have : (b :: bs).map Char.ofNat = ([] : List Char) := congrArg String.data hc
    simp at this

theorem dctSet_append (d : KVDict) (k : String) (v : KV)
    (h : dctHasKey d k = false) : dctSet d k v = d ++ [(k, v)] := by
  unfold dctSet
  rw [h]
  rfl

theorem dctHasKey_append_single (d : KVDict) (k0 k : String) (v0 : KV) :
    dctHasKey (d ++ [(k0, v0)]) k = (dctHasKey d k || (k0 == k)) := by
  unfold dctHasKey
  rw [List.any_append]
  simp

/-- Parsing a well-formed KVLM payload: starting at `start = pre.length`
inside `pre ++ payload`, the decoder consumes each simple header line and
then the blank line and message, appending to `dct`.  (The folded-line
scan contributes nothing because its test is always false; with distinct
keys the duplicate branch is never taken.) -/
theorem kvlm_go (hs : List (List Nat × List Nat)) (msg : List Nat) (f : Nat)
    (pre : List Nat) (dct : KVDict)
    (hwf : ∀ p ∈ hs, wfKvlmHeader p)
    (hmsg : ∀ b ∈ msg, b < 128)
    (hnd : (hs.map (fun p => asciiStr p.1)).Nodup)
    (hdk : ∀ p ∈ hs, dctHasKey dct (asciiStr p.1) = false)
    (hd0 : dctHasKey dct "" = false) :
    kvlmInner (f + hs.length + 1) (pre ++ mkKvlmPayload hs msg) pre.length dct =
      some (.ok (dct ++ hs.map (fun p => (asciiStr p.1, KV.s (asciiStr p.2))) ++
        [("", KV.s (asciiStr msg))])) := by
  induction hs generalizing pre dct with
  | nil =>
    have hpay : mkKvlmPayload [] msg = 10 :: msg := by
      unfold mkKvlmPayload
      simp
    rw [hpay]
    have hfind : pyFind (pre ++ 10 :: msg) 10 ((pre.length : Nat) : Int) =
        ((pre.length + 0 : Nat) : Int) :=
      pyFind_shift_found pre (10 :: msg) 10 0 (by simp [findIdxFrom])
    simp only [List.length_nil, kvlmInner, hfind, Nat.add_zero, if_true]
    have hc1 : ((pre.length : Nat) : Int) + 1 = ((pre.length + 1 : Nat) : Int) := by
      push_cast
      ring
    rw [hc1, pySliceFrom_shift pre (10 :: msg) 1]
    simp only [List.drop_succ_cons, List.drop_zero]
    rw [pyDecodeAscii_of_ascii msg hmsg]
    show some (Except.ok (dctSet dct "" (KV.s (asciiStr msg)))) =
      some (Except.ok (dct ++ List.map
        (fun p : List Nat × List Nat => (asciiStr p.1, KV.s (asciiStr p.2))) [] ++
        [("", KV.s (asciiStr msg))]))
    rw [dctSet_append dct "" _ hd0]
    simp
  | cons p hs' ih =>
    obtain ⟨kb, vb⟩ := p
    obtain ⟨hkne, hkall, hvall⟩ := hwf (kb, vb) (by simp)
    have hkall32 : ∀ x ∈ kb, x ≠ 32 := fun x hx => (hkall x hx).2.1
    have hkall10 : ∀ x ∈ kb, x ≠ 10 := fun x hx => (hkall x hx).2.2
    have hkascii : ∀ x ∈ kb, x < 128 := fun x hx => (hkall x hx).1
    have hvall10 : ∀ x ∈ vb, x ≠ 10 := fun x hx => (hvall x hx).2
    have hvascii : ∀ x ∈ vb, x < 128 := fun x hx => (hvall x hx).1
    have hpay : pre ++ mkKvlmPayload ((kb, vb) :: hs') msg =
        pre ++ (kb ++ 32 :: (vb ++ 10 :: mkKvlmPayload hs' msg)) := by
      unfold mkKvlmPayload kvlmHeaderBytes
      simp [List.append_assoc]
    rw [hpay]
    have hre : kb ++ 32 :: (vb ++ 10 :: mkKvlmPayload hs' msg) =
        (kb ++ 32 :: vb) ++ 10 :: mkKvlmPayload hs' msg := by
      simp [List.append_assoc]
    have hfind20 : pyFind (pre ++ (kb ++ 32 :: (vb ++ 10 :: mkKvlmPayload hs' msg)))
        32 ((pre.length : Nat) : Int) = ((pre.length + kb.length : Nat) : Int) :=
      pyFind_shift_found _ _ 32 kb.length (findIdxFrom_append_self kb _ 32 hkall32)
    have hidx0a : findIdxFrom (kb ++ 32 :: (vb ++ 10 :: mkKvlmPayload hs' msg)) 10 =
        some (kb.length + 1 + vb.length) := by
      rw [hre, findIdxFrom_append_self (kb ++ 32 :: vb) _ 10 ?hno]
      case hno =>
        intro x hx
        rcases List.mem_append.mp hx with h1 | h2
        · exact hkall10 x h1
        · rcases List.mem_cons.mp h2 with h3 | h4
          · omega
          · exact hvall10 x h4
      congr 1
      simp
      omega
    have hfind0a : pyFind (pre ++ (kb ++ 32 :: (vb ++ 10 :: mkKvlmPayload hs' msg)))
        10 ((pre.length : Nat) : Int) =
        ((pre.length + (kb.length + 1 + vb.length) : Nat) : Int) :=
      pyFind_shift_found _ _ 10 _ hidx0a
    have htake : (kb ++ 32 :: (vb ++ 10 :: mkKvlmPayload hs' msg)).take kb.length = kb := by
      simp
    have hc2 : ((pre.length + kb.length : Nat) : Int) + 1 =
        ((pre.length + (kb.length + 1) : Nat) : Int) := by
      push_cast
      ring
    have htakeS : (kb ++ 32 :: (vb ++ 10 :: mkKvlmPayload hs' msg)).take
        (kb.length + 1 + vb.length) = kb ++ 32 :: vb := by
      rw [hre]
      rw [show kb.length + 1 + vb.length = (kb ++ 32 :: vb).length + 0 by simp; omega]
      rw [take_len_add]
      simp
    have hdropS : (kb ++ 32 :: vb).drop (kb.length + 1) = vb := by
      rw [show kb ++ 32 :: vb = (kb ++ [32]) ++ vb by simp]
      rw [show kb.length + 1 = (kb ++ [32]).length + 0 by simp]
      rw [drop_len_add]
      simp
    have hk0 : dctHasKey dct (asciiStr kb) = false := hdk (kb, vb) (by simp)
    have hif : ¬(((pre.length : Nat) : Int) =
        ((pre.length + (kb.length + 1 + vb.length) : Nat) : Int)) := by
      intro hc
      have hcn : pre.length = pre.length + (kb.length + 1 + vb.length) := by
        exact_mod_cast hc
      omega
    have hc3 : (((pre.length + (kb.length + 1 + vb.length) : Nat) : Int) + 1).toNat =
        pre.length + (kb.length + 1 + vb.length) + 1 := by omega
    simp only [List.length_cons]
    rw [show f + (hs'.length + 1) + 1 = (f + hs'.length + 1) + 1 by omega]
    generalize hF : f + hs'.length + 1 = F
    simp only [kvlmInner, hfind20, hfind0a, hif, if_false, pySlice_prefix, htake,
      pyDecodeAscii_of_ascii kb hkascii, kvlmContLoop_succ, hc2, pySlice_shift,
      htakeS, hdropS, listReplaceNlSp_id vb hvall10, pyDecodeAscii_of_ascii vb hvascii,
      hk0, Bool.false_eq_true, dctSet_append dct _ _ hk0, hc3]
    have hraw : pre ++ (kb ++ 32 :: (vb ++ 10 :: mkKvlmPayload hs' msg)) =
        (pre ++ (kb ++ 32 :: (vb ++ [10]))) ++ mkKvlmPayload hs' msg := by
      simp [List.append_assoc]
    have hplen : pre.length + (kb.length + 1 + vb.length) + 1 =
        (pre ++ (kb ++ 32 :: (vb ++ [10]))).length := by
      simp
      omega
    rw [hraw, hplen, ← hF]
    have hwf2 : ∀ q ∈ hs', wfKvlmHeader q := fun q hq => hwf q (by simp [hq])
    have hnd2 : (hs'.map (fun q => asciiStr q.1)).Nodup := by
      simp only [List.map_cons, List.nodup_cons] at hnd
      exact hnd.2
    have hnotin : asciiStr kb ∉ hs'.map (fun q => asciiStr q.1) := by
      simp only [List.map_cons, List.nodup_cons] at hnd
      exact hnd.1
    have hdk2 : ∀ q ∈ hs',
        dctHasKey (dct ++ [(asciiStr kb, KV.s (asciiStr vb))]) (asciiStr q.1) = false := by
      intro q hq
      rw [dctHasKey_append_single, hdk q (by simp [hq])]
      simp only [Bool.false_or]
      have hne2 : asciiStr kb ≠ asciiStr q.1 := by
        intro hc
        apply hnotin
        rw [hc]
        exact List.mem_map_of_mem _ hq
      simpa using hne2
    have hd02 : dctHasKey (dct ++ [(asciiStr kb, KV.s (asciiStr vb))]) "" = false := by
      rw [dctHasKey_append_single, hd0]
      simp only [Bool.false_or]
      simpa using asciiStr_ne_empty kb hkne
    rw [ih (pre ++ (kb ++ 32 :: (vb ++ [10]))) (dct ++ [(asciiStr kb, KV.s (asciiStr vb))])
      hwf2 hnd2 hdk2 hd02]
    simp [List.append_assoc]

/-- C4 (amended): the KVLM decoder is total over the message body for
ASCII payloads: for every well-formed payload (simple headers, distinct
keys) whose message consists of arbitrary ASCII bytes — newlines
included — deserialization succeeds, the message is the value of the
`""` key, and its bytes are preserved (re-encoding gives back exactly
`msg`).  Bytes outside ASCII fail (see the counterexample). -/
theorem kvlm_ascii_total (hs : List (List Nat × List Nat)) (msg : List Nat)
    (hwf : ∀ p ∈ hs, wfKvlmHeader p)
    (hmsg : ∀ b ∈ msg, b < 128)
    (hnd : (hs.map (fun p => asciiStr p.1)).Nodup) :
    kvlmParse (hs.length + 1) (mkKvlmPayload hs msg) =
      some (.ok (hs.map (fun p => (asciiStr p.1, KV.s (asciiStr p.2))) ++
        [("", KV.s (asciiStr msg))])) ∧
    strBytes (asciiStr msg) = msg := by
  constructor
  · have h := kvlm_go hs msg 0 [] [] hwf hmsg hnd
      (by intro p hp; rfl) rfl
    rw [show hs.length + 1 = 0 + hs.length + 1 by omega]
    unfold kvlmParse
    simpa using h
  · exact strBytes_asciiStr msg hmsg

/-- Witness for `kvlm_ascii_total`: a concrete `tree`-header payload
whose message contains embedded newlines. -/
theorem kvlm_ascii_total_witness :
    (∀ p ∈ [([116, 114, 101, 101], [97, 98])], wfKvlmHeader p) ∧
    (∀ b ∈ [104, 105, 10, 10, 33], b < 128) ∧
    ([([116, 114, 101, 101], [97, 98])].map
      (fun p : List Nat × List Nat => asciiStr p.1)).Nodup ∧
    kvlmParse 2 (mkKvlmPayload [([116, 114, 101, 101], [97, 98])]
        [104, 105, 10, 10, 33]) =
      some (.ok [("tree", KV.s "ab"), ("", KV.s "hi\x0a\x0a!")]) ∧
    strBytes (asciiStr [104, 105, 10, 10, 33]) = [104, 105, 10, 10, 33] := by
  refine ⟨by decide, by decide, by decide, ?_, ?_⟩
  · exact ((kvlm_ascii_total [([116, 114, 101, 101], [97, 98])]
      [104, 105, 10, 10, 33] (by decide) (by decide) (by decide)).1).trans (by decide)
  · exact (kvlm_ascii_total [([116, 114, 101, 101], [97, 98])]
      [104, 105, 10, 10, 33] (by decide) (by decide) (by decide)).2
